import Mathlib

/-!
Shallow embedding of the repository's three Python scripts
(`scripts/gkeep.py`, `experiments/gtd_workflow.py`,
`webpage_summary_agent/agent.py`) and proofs about the claims of the
specification.  Machinery owned by external libraries (the hosted LLM
runtime, `urlparse`, the filesystem, the clock) is modelled as explicit
inputs; everything the repository's own code computes is translated
directly from the source.
-/

/-- A JSON-like Python value, as produced by `json.load` in `gkeep.py`:
`None`, booleans, numbers, strings, lists and string-keyed dicts
(dicts are modelled as association lists, preserving insertion order,
which is the iteration order of Python dicts). -/
inductive JVal where
  | null : JVal
  | bool (b : Bool) : JVal
  | num (n : Int) : JVal
  | str (s : String) : JVal
  | arr (elems : List JVal) : JVal
  | obj (fields : List (String × JVal)) : JVal

/-- The child path built for a dict key in `print_keys`
(`full_key = f"{pfx}.{key}" if pfx else key`): Python string
truthiness makes the empty pfx the special case. -/
def dictChildKey (pfx key : String) : String :=
  if pfx = "" then key else pfx ++ "." ++ key

/-- The child path built for a list element in `print_keys`
(`full_key = f"{pfx}[{index}]"`). -/
def listChildKey (pfx : String) (index : Nat) : String :=
  pfx ++ "[" ++ toString index ++ "]"

mutual
/-- Model of `print_keys(data, pfx)` from `scripts/gkeep.py` (lines 32-70),
with `print(full_key)` modelled as emitting one element of the returned
list of output lines.  A dict prints each key's full path then recurses
into the value; a list prints each element's indexed path then recurses;
any other value prints nothing. -/
def printKeys : JVal → String → List String
  | JVal.obj fields, pfx => printKeysFields fields pfx
  | JVal.arr elems, pfx => printKeysElems elems pfx 0
  | _, _ => []

/-- The `for key in data:` loop of `print_keys` over a dict's items. -/
def printKeysFields : List (String × JVal) → String → List String
  | [], _ => []
  | (key, v) :: rest, pfx =>
      (dictChildKey pfx key :: printKeys v (dictChildKey pfx key))
        ++ printKeysFields rest pfx

/-- The `for index, item in enumerate(data):` loop of `print_keys` over a
list, carrying the running index. -/
def printKeysElems : List JVal → String → Nat → List String
  | [], _, _ => []
  | item :: rest, pfx, index =>
      (listChildKey pfx index :: printKeys item (listChildKey pfx index))
        ++ printKeysElems rest pfx (index + 1)
end

mutual
/-- The number of nodes of a nested structure: every leaf and every
container node counts one, the root included. -/
def nodeCount : JVal → Nat
  | JVal.obj fields => 1 + nodeCountFields fields
  | JVal.arr elems => 1 + nodeCountElems elems
  | _ => 1

/-- Sum of `nodeCount` over a dict's values. -/
def nodeCountFields : List (String × JVal) → Nat
  | [] => 0
  | (_, v) :: rest => nodeCount v + nodeCountFields rest

/-- Sum of `nodeCount` over a list's elements. -/
def nodeCountElems : List JVal → Nat
  | [] => 0
  | item :: rest => nodeCount item + nodeCountElems rest
end

mutual
theorem printKeys_length (d : JVal) (pfx : String) :
    (printKeys d pfx).length + 1 = nodeCount d := by
  cases d with
  | obj fields =>
      simp only [printKeys, nodeCount]
      have h := printKeysFields_length fields pfx
      omega
  | arr elems =>
      simp only [printKeys, nodeCount]
      have h := printKeysElems_length elems pfx 0
      omega
  | null => simp [printKeys, nodeCount]
  | bool b => simp [printKeys, nodeCount]
  | num n => simp [printKeys, nodeCount]
  | str s => simp [printKeys, nodeCount]

theorem printKeysFields_length (fields : List (String × JVal)) (pfx : String) :
    (printKeysFields fields pfx).length = nodeCountFields fields := by
  cases fields with
  | nil => simp [printKeysFields, nodeCountFields]
  | cons kv rest =>
      obtain ⟨key, v⟩ := kv
      simp only [printKeysFields, nodeCountFields, List.length_append,
        List.length_cons]
      have h1 := printKeys_length v (dictChildKey pfx key)
      have h2 := printKeysFields_length rest pfx
      omega

theorem printKeysElems_length (elems : List JVal) (pfx : String) (index : Nat) :
    (printKeysElems elems pfx index).length = nodeCountElems elems := by
  cases elems with
  | nil => simp [printKeysElems, nodeCountElems]
  | cons item rest =>
      simp only [printKeysElems, nodeCountElems, List.length_append,
        List.length_cons]
      have h1 := printKeys_length item (listChildKey pfx index)
      have h2 := printKeysElems_length rest pfx (index + 1)
      omega
end

/-- Spec-side description of claim C2, written from the claim's words
rather than the source: a depth-first preorder traversal that, under a
given path, emits each mapping child as the dotted path, each sequence
element as the bracketed path with its index taken from its position in
the sequence, a node's path line first followed by the lines of its
descendants, the mapping keys in stored order and the elements in index
order. -/
def dfsLines : JVal → String → List String
  | JVal.obj fields, pfx =>
      fields.attach.flatMap fun kv =>
        dictChildKey pfx kv.1.1 :: dfsLines kv.1.2 (dictChildKey pfx kv.1.1)
  | JVal.arr elems, pfx =>
      ((List.range elems.length).zip elems).attach.flatMap fun ie =>
        listChildKey pfx ie.1.1 :: dfsLines ie.1.2 (listChildKey pfx ie.1.1)
  | _, _ => []
termination_by d _ => sizeOf d
decreasing_by
  · have hm := List.sizeOf_lt_of_mem kv.2
    obtain ⟨⟨k, v⟩, _⟩ := kv
    simp only [Prod.mk.sizeOf_spec] at hm ⊢
    simp only [JVal.obj.sizeOf_spec]
    omega
  · have hm := List.sizeOf_lt_of_mem (List.of_mem_zip ie.2).2
    obtain ⟨⟨i, item⟩, _⟩ := ie
    simp only [JVal.arr.sizeOf_spec]
    simp only at hm
    omega

theorem attach_flatMap_eq {α β : Type} :
    ∀ (l : List α) (f : {x // x ∈ l} → List β) (g : α → List β),
      (∀ (x : α) (hx : x ∈ l), f ⟨x, hx⟩ = g x) →
      l.attach.flatMap f = l.flatMap g := by
  intro l
  induction l with
  | nil => intro f g h; simp
  | cons a rest ih =>
      intro f g h
      simp only [List.attach_cons, List.flatMap_cons, List.flatMap_map,
        Function.comp]
      rw [h a (List.mem_cons_self a rest)]
      congr 1
      exact ih _ g fun x hx => h x (List.mem_cons_of_mem a hx)

theorem printKeysFields_eq_flatMap (fields : List (String × JVal)) (pfx : String)
    (H : ∀ kv ∈ fields, ∀ p, printKeys kv.2 p = dfsLines kv.2 p) :
    printKeysFields fields pfx =
      fields.flatMap fun kv =>
        dictChildKey pfx kv.1 :: dfsLines kv.2 (dictChildKey pfx kv.1) := by
  induction fields with
  | nil => simp [printKeysFields]
  | cons kv rest ih =>
      obtain ⟨k, v⟩ := kv
      simp only [printKeysFields, List.flatMap_cons]
      rw [H (k, v) (List.mem_cons_self _ _),
        ih fun kv h => H kv (List.mem_cons_of_mem _ h)]

theorem printKeysElems_eq_flatMap (elems : List JVal) (pfx : String) (index : Nat)
    (H : ∀ item ∈ elems, ∀ p, printKeys item p = dfsLines item p) :
    printKeysElems elems pfx index =
      ((List.range' index elems.length).zip elems).flatMap fun ie =>
        listChildKey pfx ie.1 :: dfsLines ie.2 (listChildKey pfx ie.1) := by
  induction elems generalizing index with
  | nil => simp [printKeysElems]
  | cons item rest ih =>
      simp only [printKeysElems, List.length_cons, List.range'_succ,
        List.zip_cons_cons, List.flatMap_cons]
      rw [H item (List.mem_cons_self _ _),
        ih (index + 1) fun it h => H it (List.mem_cons_of_mem _ h)]

theorem printKeys_eq_dfsLines_aux :
    ∀ (n : Nat) (d : JVal), sizeOf d ≤ n → ∀ pfx, printKeys d pfx = dfsLines d pfx := by
  intro n
  induction n with
  | zero =>
      intro d h
      cases d <;>
        simp only [JVal.null.sizeOf_spec, JVal.bool.sizeOf_spec,
          JVal.num.sizeOf_spec, JVal.str.sizeOf_spec, JVal.obj.sizeOf_spec,
          JVal.arr.sizeOf_spec] at h <;> omega
  | succ n ih =>
      intro d hd pfx
      cases d with
      | obj fields =>
          have hf : sizeOf fields ≤ n := by
            simp only [JVal.obj.sizeOf_spec] at hd; omega
          rw [printKeys, dfsLines]
          refine (printKeysFields_eq_flatMap fields pfx fun kv hkv p => ?_).trans
            (attach_flatMap_eq fields _ _ fun x hx => rfl).symm
          have hm := List.sizeOf_lt_of_mem hkv
          obtain ⟨k, v⟩ := kv
          simp only [Prod.mk.sizeOf_spec] at hm
          exact ih v (by omega) p
      | arr elems =>
          have he : sizeOf elems ≤ n := by
            simp only [JVal.arr.sizeOf_spec] at hd; omega
          rw [printKeys, dfsLines, List.range_eq_range']
          refine (printKeysElems_eq_flatMap elems pfx 0 fun item hit p => ?_).trans
            (attach_flatMap_eq _ _ _ fun x hx => rfl).symm
          have hm := List.sizeOf_lt_of_mem hit
          exact ih item (by omega) p
      | null => simp [printKeys, dfsLines]
      | bool b => simp [printKeys, dfsLines]
      | num m => simp [printKeys, dfsLines]
      | str s => simp [printKeys, dfsLines]

/-- Claim C2 (confirmed): `print_keys` is exactly the depth-first preorder
traversal described by the claim: under any path, every mapping child is
printed as the dotted path and every sequence element as the bracketed
path with its positional index, every node's line precedes its
descendants' lines, mapping keys are visited in stored order and sequence
elements in index order (`dfsLines` is that traversal, written from the
claim's words). -/
theorem printKeys_is_preorder_dfs (d : JVal) (pfx : String) :
    printKeys d pfx = dfsLines d pfx :=
  printKeys_eq_dfsLines_aux (sizeOf d) d (Nat.le_refl _) pfx

/-- Claim C1 (corrected), counterexample: on the nested mapping
`{"a": None}` the printer emits exactly one line (`a`), while the
structure has two nodes (the root container and the leaf), so the
printer does not emit one line per node when the root container is
counted. -/
theorem printKeys_root_uncounted_cex :
    (printKeys (JVal.obj [("a", JVal.null)]) "").length ≠
      nodeCount (JVal.obj [("a", JVal.null)]) := by
  decide

/-- Claim C1 (amended): for every nested structure and every pfx,
`print_keys` emits exactly one output line per node of the structure
other than the root: the line count is the node count (leaves and
containers, root included) minus one. -/
theorem printKeys_one_line_per_nonroot_node (d : JVal) (pfx : String) :
    (printKeys d pfx).length + 1 = nodeCount d :=
  printKeys_length d pfx

/-- A `datetime.datetime` as produced by `datetime.fromtimestamp`,
identified by its (exact rational) seconds since the epoch; the script
only constructs, compares and prints these values. -/
structure PyDatetime where
  secondsSinceEpoch : ℚ
deriving DecidableEq

/-- Model of `datetime.fromtimestamp(s)` of the Python standard library. -/
def PyDatetime.fromtimestamp (s : ℚ) : PyDatetime :=
  ⟨s⟩

/-- Model of `convert_timestamp(timestamp_usec)` from `scripts/gkeep.py`
(lines 73-75):
`return datetime.fromtimestamp(timestamp_usec / 1000000) if timestamp_usec else None`.
The argument is the optional microsecond timestamp read off the note
(`none` models Python `None`); the guard is Python truthiness, under
which both `None` and the number `0` are falsy. -/
def convert_timestamp : Option Int → Option PyDatetime
  | none => none
  | some t => if t = 0 then none else
      some (PyDatetime.fromtimestamp ((t : ℚ) / 1000000))

/-- Claim C6 (corrected), counterexample: the timestamp `0` is present
(not absent), yet `convert_timestamp` returns `None` for it, because the
source guards on Python truthiness of the value rather than on its
presence. -/
theorem convert_timestamp_zero_cex :
    convert_timestamp (some 0) = none ∧ (some (0 : Int) : Option Int) ≠ none :=
  ⟨rfl, by decide⟩

/-- Claim C6 (amended): `convert_timestamp` returns `None` exactly when
the timestamp value is absent or is the (falsy) number `0`; for every
present non-zero microsecond timestamp `t` it returns the datetime
corresponding to `t / 1000000` seconds. -/
theorem convert_timestamp_characterization :
    (∀ t : Option Int, convert_timestamp t = none ↔ t = none ∨ t = some 0) ∧
    (∀ v : Int, v ≠ 0 →
      convert_timestamp (some v) =
        some (PyDatetime.fromtimestamp ((v : ℚ) / 1000000))) := by
  constructor
  · intro t
    cases t with
    | none => simp [convert_timestamp]
    | some v =>
        by_cases hv : v = 0 <;> simp [convert_timestamp, hv]
  · intro v hv
    simp [convert_timestamp, hv]

/-- Witness for the amended claim C6 at the concrete timestamp
`5000000` microseconds (five seconds past the epoch). -/
theorem convert_timestamp_characterization_witness :
    (5000000 : Int) ≠ 0 ∧
      convert_timestamp (some 5000000) =
        some (PyDatetime.fromtimestamp ((5000000 : ℚ) / 1000000)) :=
  ⟨by decide, convert_timestamp_characterization.2 5000000 (by decide)⟩

/-- A parsed JSON note as loaded by `json.load`: a Python dict, modelled
as an association list in insertion order. -/
def Note : Type := List (String × JVal)

/-- Model of `note.get(key)`: the value stored under `key`, or `None` when the
key is missing.  CPython `dict.get` reads the dict and never mutates
it. -/
def pyGet (note : Note) (key : String) : Option JVal :=
  (List.find? (fun kv => kv.1 == key) note).map Prod.snd

/-- Model of `Path(KEEP_EXPORT_ABSOLUTE_PATH, att["filePath"])` from
`process_note`: a `pathlib.Path` assembled from the export root and the
attachment's relative file path, kept as the pair of segments it was
built from. -/
structure FsPath where
  root : String
  relative : String
deriving DecidableEq

/-- Model of `att["filePath"]` for one entry of the `attachments` list, as used
by the comprehension in `process_note`: the entry must be a dict with a
string under `"filePath"`; any other shape raises in Python
(`KeyError`/`TypeError` from the subscript or from `Path`), modelled as
`none`. -/
def attachmentFilePath : JVal → Option String
  | JVal.obj fields =>
      match (List.find? (fun kv => kv.1 == "filePath") fields).map Prod.snd with
      | some (JVal.str s) => some s
      | _ => none
  | _ => none

/-- Sequence a fallible map over a list, failing as soon as one element
fails (the behaviour of a Python list comprehension whose body may
raise). -/
def mapOption {α β : Type} (f : α → Option β) : List α → Option (List β)
  | [] => some []
  | a :: rest => do
      let b ← f a
      let bs ← mapOption f rest
      pure (b :: bs)

/-- The comprehension
`[Path(KEEP_EXPORT_ABSOLUTE_PATH, att["filePath"]) for att in attachments]`
from `process_note`.  A non-list `attachments` value departs from the
export schema and is modelled as failure (in Python such values raise on
iteration or on the subscript, apart from degenerate empty iterables). -/
def attachmentPaths (root : String) : JVal → Option (List FsPath)
  | JVal.arr items =>
      (mapOption attachmentFilePath items).map (List.map fun fp => FsPath.mk root fp)
  | _ => none

/-- The flat record `process_note` returns: exactly the six fields of
the dict literal at `scripts/gkeep.py` lines 92-101, in order. -/
structure ProcessedNote where
  textContent : String
  createdTimestampUsec : Option PyDatetime
  userEditedTimestampUsec : Option PyDatetime
  attachments : List FsPath
  isTrashed : Bool
  isArchived : Bool
deriving DecidableEq

/-- Model of `note.get("textContent", "")`: the stored string, or the default
when the key is absent.  A non-string stored value departs from the
export schema (it would make the later `.strip()` in `create_summary`
raise) and is modelled as failure. -/
def strOrDefault : Option JVal → String → Option String
  | none, dflt => some dflt
  | some (JVal.str s), _ => some s
  | some _, _ => none

/-- A timestamp read via `note.get(key)`: absent or JSON `null` gives
Python `None`, a number gives the number.  Other shapes depart from the
export schema (non-numeric truthy values raise inside
`convert_timestamp`) and are modelled as failure. -/
def numOrNone : Option JVal → Option (Option Int)
  | none => some none
  | some JVal.null => some none
  | some (JVal.num n) => some (some n)
  | some _ => none

/-- Model of `note.get(key, False)` for the boolean flags: the stored boolean, or
the default when the key is absent.  Other shapes depart from the export
schema and are modelled as failure. -/
def boolOrDefault : Option JVal → Bool → Option Bool
  | none, dflt => some dflt
  | some (JVal.bool b), _ => some b
  | some _, _ => none

/-- Model of `process_note(note)` from `scripts/gkeep.py` (lines 79-102), with
the environment variable `KEEP_EXPORT_ABSOLUTE_PATH` passed as `root`.
`none` models a Python exception on a note departing from the export
schema.  The `.get` calls appear in source order: the attachments
comprehension first, then the fields of the returned dict literal. -/
def process_note (root : String) (note : Note) : Option ProcessedNote := do
  let attachments ← attachmentPaths root
    ((pyGet note "attachments").getD (JVal.arr []))
  let textContent ← strOrDefault (pyGet note "textContent") ""
  let created ← numOrNone (pyGet note "createdTimestampUsec")
  let edited ← numOrNone (pyGet note "userEditedTimestampUsec")
  let isTrashed ← boolOrDefault (pyGet note "isTrashed") false
  let isArchived ← boolOrDefault (pyGet note "isArchived") false
  pure
    { textContent := textContent
      createdTimestampUsec := convert_timestamp created
      userEditedTimestampUsec := convert_timestamp edited
      attachments := attachments
      isTrashed := isTrashed
      isArchived := isArchived }

/-- An input note of the export schema (spec section 3): text content, two
microsecond timestamps, a list of attachment file paths and two boolean
flags, every field optional.  `toNote` below renders it as the JSON dict
`process_note` consumes. -/
structure SchemaNote where
  textContent : Option String
  createdTimestampUsec : Option Int
  userEditedTimestampUsec : Option Int
  attachments : Option (List String)
  isTrashed : Option Bool
  isArchived : Option Bool

/-- One optional dict entry: present fields contribute a key, absent
fields contribute nothing. -/
def optEntry (key : String) : Option JVal → List (String × JVal)
  | some v => [(key, v)]
  | none => []

/-- The JSON dict a `SchemaNote` denotes. -/
def SchemaNote.toNote (s : SchemaNote) : Note :=
  optEntry "textContent" (s.textContent.map JVal.str) ++
  optEntry "createdTimestampUsec" (s.createdTimestampUsec.map JVal.num) ++
  optEntry "userEditedTimestampUsec" (s.userEditedTimestampUsec.map JVal.num) ++
  optEntry "attachments" (s.attachments.map fun l =>
    JVal.arr (l.map fun fp => JVal.obj [("filePath", JVal.str fp)])) ++
  optEntry "isTrashed" (s.isTrashed.map JVal.bool) ++
  optEntry "isArchived" (s.isArchived.map JVal.bool)

theorem attachmentFilePath_roundtrip (l : List String) :
    mapOption attachmentFilePath
        (l.map fun fp => JVal.obj [("filePath", JVal.str fp)]) = some l := by
  induction l with
  | nil => rfl
  | cons a rest ih => simp [mapOption, attachmentFilePath, ih]

theorem attachmentPaths_roundtrip (root : String) (l : List String) :
    attachmentPaths root
        (JVal.arr (l.map fun fp => JVal.obj [("filePath", JVal.str fp)])) =
      some (l.map fun fp => FsPath.mk root fp) := by
  simp [attachmentPaths, attachmentFilePath_roundtrip]

/-- Claim C5 (confirmed): for every note of the export schema (all six
fields optional, arbitrary contents) and every export root,
`process_note` returns the flat record with exactly the six fields:
the note's text defaulting to `""` when absent, the two converted
timestamps, the attachment file paths each resolved under the export
root, and the two flags defaulting to `False` when absent. -/
theorem process_note_flat_record (root : String) (s : SchemaNote) :
    process_note root s.toNote =
      some
        { textContent := s.textContent.getD ""
          createdTimestampUsec := convert_timestamp s.createdTimestampUsec
          userEditedTimestampUsec := convert_timestamp s.userEditedTimestampUsec
          attachments := (s.attachments.getD []).map fun fp => FsPath.mk root fp
          isTrashed := s.isTrashed.getD false
          isArchived := s.isArchived.getD false } := by
  obtain ⟨tc, cr, ed, att, tr, ar⟩ := s
  cases tc <;> cases cr <;> cases ed <;> cases att <;> cases tr <;> cases ar <;>
    simp [process_note, SchemaNote.toNote, optEntry, pyGet, strOrDefault,
      numOrNone, boolOrDefault, attachmentFilePath_roundtrip, attachmentPaths,
      mapOption, List.find?]

/-- Model of `note.get(key)` as a state action on the note dict, for the frame
claim: the operation takes the dict as state and returns it alongside
the value.  CPython `dict.get` only reads, so the state comes back
unchanged; this is the sole operation `process_note` performs on the
note. -/
def pyGetSt (key : String) (note : Note) : Option JVal × Note :=
  ((List.find? (fun kv => kv.1 == key) note).map Prod.snd, note)

/-- The state-passing reading of `process_note`: the six `.get` calls
are sequenced in source order, each threading the note dict, and the
final state of the note is returned alongside the result. -/
def process_note_st (root : String) (note₀ : Note) :
    Option ProcessedNote × Note :=
  let r₁ := pyGetSt "attachments" note₀
  let r₂ := pyGetSt "textContent" r₁.2
  let r₃ := pyGetSt "createdTimestampUsec" r₂.2
  let r₄ := pyGetSt "userEditedTimestampUsec" r₃.2
  let r₅ := pyGetSt "isTrashed" r₄.2
  let r₆ := pyGetSt "isArchived" r₅.2
  (do
    let attachments ← attachmentPaths root (r₁.1.getD (JVal.arr []))
    let textContent ← strOrDefault r₂.1 ""
    let created ← numOrNone r₃.1
    let edited ← numOrNone r₄.1
    let isTrashed ← boolOrDefault r₅.1 false
    let isArchived ← boolOrDefault r₆.1 false
    pure
      { textContent := textContent
        createdTimestampUsec := convert_timestamp created
        userEditedTimestampUsec := convert_timestamp edited
        attachments := attachments
        isTrashed := isTrashed
        isArchived := isArchived }, r₆.2)

/-- Claim C8 (confirmed): `process_note` consumes the note read-only:
threading the note dict through every operation the source performs on
it (the six `dict.get` reads) returns the dict unchanged — same keys and
values, in the same order — while computing the same result as
`process_note`. -/
theorem process_note_leaves_note_unchanged (root : String) (note : Note) :
    process_note_st root note = (process_note root note, note) :=
  rfl

/-- The ASCII whitespace characters removed by Python `str.strip()`:
space, tab, newline, carriage return, vertical tab and form feed. -/
def pyIsSpace (c : Char) : Bool :=
  c = ' ' || c = '\t' || c = '\n' || c = '\r' || c = '\x0b' || c = '\x0c'

/-- Python `s.strip()` with no arguments: remove leading and trailing
whitespace.  (Python also strips further Unicode whitespace; the
repository only strips model output and note text, compared against the
ASCII set above.) -/
def pythonStrip (s : String) : String :=
  ⟨((s.data.dropWhile pyIsSpace).reverse.dropWhile pyIsSpace).reverse⟩

theorem pythonStrip_eq_empty_of_all_space (s : String)
    (h : s.data.all pyIsSpace = true) : pythonStrip s = "" := by
  have h' : s.data.dropWhile pyIsSpace = [] := by
    rw [List.dropWhile_eq_nil_iff]
    intro x hx
    exact List.all_eq_true.mp h x hx
  simp [pythonStrip, h']

/-- Model of `mime_type_map`, the dict literal of `create_summary`
(`scripts/gkeep.py` lines 184-190), in insertion order. -/
def mime_type_map : List (String × String) :=
  [(".png", "image/png"), (".jpg", "image/jpeg"), (".jpeg", "image/jpeg"),
   (".gif", "image/gif"), (".webp", "image/webp")]

/-- Model of `mime_type_map.get(attachment_path.suffix.lower(), "image/png")`
(lines 191-193): dict lookup on the lower-cased extension with the
fallback content type. -/
def resolveMimeType (ext : String) : String :=
  ((List.find? (fun kv => kv.1 == ext) mime_type_map).map Prod.snd).getD
    "image/png"

/-- Claim C4 (confirmed): the MIME-type resolution step is a total
function on extensions mapping exactly `.png`, `.jpg`, `.jpeg`, `.gif`,
`.webp` to `image/png`, `image/jpeg`, `image/jpeg`, `image/gif`,
`image/webp`, and every other extension to the single fallback
`image/png`. -/
theorem mime_resolution_total :
    resolveMimeType ".png" = "image/png" ∧
    resolveMimeType ".jpg" = "image/jpeg" ∧
    resolveMimeType ".jpeg" = "image/jpeg" ∧
    resolveMimeType ".gif" = "image/gif" ∧
    resolveMimeType ".webp" = "image/webp" ∧
    ∀ ext : String,
      ext ∉ [".png", ".jpg", ".jpeg", ".gif", ".webp"] →
      resolveMimeType ext = "image/png" := by
  refine ⟨rfl, rfl, rfl, rfl, rfl, ?_⟩
  intro ext h
  simp only [List.mem_cons, List.not_mem_nil, or_false, not_or] at h
  obtain ⟨h1, h2, h3, h4, h5⟩ := h
  have e1 : (".png" == ext) = false := beq_eq_false_iff_ne.mpr (Ne.symm h1)
  have e2 : (".jpg" == ext) = false := beq_eq_false_iff_ne.mpr (Ne.symm h2)
  have e3 : (".jpeg" == ext) = false := beq_eq_false_iff_ne.mpr (Ne.symm h3)
  have e4 : (".gif" == ext) = false := beq_eq_false_iff_ne.mpr (Ne.symm h4)
  have e5 : (".webp" == ext) = false := beq_eq_false_iff_ne.mpr (Ne.symm h5)
  simp [resolveMimeType, mime_type_map, List.find?, e1, e2, e3, e4, e5]

/-- Witness for claim C4 at the unrecognized extension `.txt`. -/
theorem mime_resolution_total_witness :
    (".txt" : String) ∉ [".png", ".jpg", ".jpeg", ".gif", ".webp"] ∧
      resolveMimeType ".txt" = "image/png" :=
  ⟨by decide, mime_resolution_total.2.2.2.2.2 ".txt" (by decide)⟩

/-- Model of `create_summary(processed_note)` from `scripts/gkeep.py`
(lines 105-225).  Everything owned by the external agent framework is
the input `attempt`: `attempt i` is what the `i`-th execution of the
`try` body (constructing the `LlmAgent` and running
`asyncio.run(get_summary())`) would yield — a raised exception's message
`str(e)`, or the list of text parts `get_summary` accumulates from the
event stream.  The returned `Nat` counts how many times the try body
ran; returning a plain string in every case mirrors the
`except Exception` handler, which never re-raises. -/
def create_summary (pn : ProcessedNote)
    (attempt : Nat → Except String (List String)) : String × Nat :=
  if pythonStrip pn.textContent = "" ∨ pn.isTrashed = true then
    ("Empty or trashed note - no summary generated", 0)
  else
    match attempt 0 with
    | Except.error e => ("Error generating summary: " ++ e, 1)
    | Except.ok eventTexts =>
        let result_text := String.join eventTexts
        (if result_text = "" then "No summary generated"
         else pythonStrip result_text, 1)

/-- Claim C10 (confirmed): for every processed note whose text content
is empty or whitespace-only, or whose `isTrashed` flag is set,
`create_summary` returns the fixed skip string and executes the try body
zero times — so no agent is constructed and the model is never
invoked. -/
theorem create_summary_skips_empty_or_trashed (pn : ProcessedNote)
    (attempt : Nat → Except String (List String))
    (h : pn.textContent.data.all pyIsSpace = true ∨ pn.isTrashed = true) :
    create_summary pn attempt =
      ("Empty or trashed note - no summary generated", 0) := by
  rcases h with h | h
  · simp [create_summary, pythonStrip_eq_empty_of_all_space _ h]
  · simp [create_summary, h]

/-- Witness for claim C10: a whitespace-only, untrashed note. -/
theorem create_summary_skips_empty_or_trashed_witness :
    (("  " : String).data.all pyIsSpace = true ∨ (false : Bool) = true) ∧
      create_summary
          { textContent := "  ", createdTimestampUsec := none,
            userEditedTimestampUsec := none, attachments := [],
            isTrashed := false, isArchived := false }
          (fun _ => Except.error "unreached") =
        ("Empty or trashed note - no summary generated", 0) :=
  ⟨Or.inl (by decide),
    create_summary_skips_empty_or_trashed _ _ (Or.inl (by decide))⟩

/-- Model of `capture_task(task_description, context="")` from
`experiments/gtd_workflow.py` (lines 17-20).  The body calls
`datetime.now().isoformat()`, a read of the ambient clock, modelled as
the extra input `now_iso`. -/
def capture_task (task_description : String) (context : String)
    (now_iso : String) : String :=
  "Task captured: '" ++ task_description ++ "' (Context: " ++ context ++
    ") at " ++ now_iso

/-- Model of `clarify_task(task)` from `experiments/gtd_workflow.py`
(lines 23-25). -/
def clarify_task (task : String) : String :=
  "Task clarified: '" ++ task ++ "' is actionable. Next action: Process " ++
    task ++ ". Context: @computer"

/-- Model of `organize_task(task)` from `experiments/gtd_workflow.py`
(lines 28-30). -/
def organize_task (task : String) : String :=
  "Task organized into @computer context: " ++ task

/-- Model of `review_tasks()` from `experiments/gtd_workflow.py` (lines 33-35). -/
def review_tasks : String :=
  "Weekly review completed: All lists reviewed, projects updated, next actions identified"

/-- Model of `engage_with_task(task)` from `experiments/gtd_workflow.py`
(lines 38-40). -/
def engage_with_task (task : String) : String :=
  "Working on task: " ++ task ++ " - Task completed successfully"

theorem string_append_left_cancel {p a b : String} (h : p ++ a = p ++ b) :
    a = b := by
  have hd : (p ++ a).data = (p ++ b).data := congrArg String.data h
  simp only [String.data_append] at hd
  exact String.ext (List.append_cancel_left hd)

/-- Claim C3 (corrected), counterexample: `capture_task` is not pure
string formatting of its arguments — its output embeds the current
time, so two calls with identical arguments made at different clock
readings return different strings. -/
theorem capture_task_time_dependent_cex :
    capture_task "call dentist" "" "2025-01-01T00:00:00" ≠
      capture_task "call dentist" "" "2025-01-02T00:00:00" := by
  decide

/-- Claim C3 (amended): four of the five GTD tool functions
(`clarify_task`, `organize_task`, `review_tasks`, `engage_with_task`)
are stateless, pure string formatting — their output is the stated
function of their arguments alone — while `capture_task` additionally
incorporates the current clock reading, so two calls with the same
arguments return the same string only when the clock readings agree:
at distinct readings the outputs always differ. -/
theorem gtd_tools_purity :
    (∀ task, clarify_task task =
      "Task clarified: '" ++ task ++
        "' is actionable. Next action: Process " ++ task ++
        ". Context: @computer") ∧
    (∀ task, organize_task task =
      "Task organized into @computer context: " ++ task) ∧
    (review_tasks =
      "Weekly review completed: All lists reviewed, projects updated, next actions identified") ∧
    (∀ task, engage_with_task task =
      "Working on task: " ++ task ++ " - Task completed successfully") ∧
    (∀ task_description context now₁ now₂, now₁ ≠ now₂ →
      capture_task task_description context now₁ ≠
        capture_task task_description context now₂) := by
  refine ⟨fun _ => rfl, fun _ => rfl, rfl, fun _ => rfl, ?_⟩
  intro d c n₁ n₂ hne h
  exact hne (string_append_left_cancel h)

/-- Witness for the amended claim C3 at concrete arguments and two
distinct clock readings. -/
theorem gtd_tools_purity_witness :
    ("t1" : String) ≠ "t2" ∧
      capture_task "buy groceries" "@errands" "t1" ≠
        capture_task "buy groceries" "@errands" "t2" :=
  ⟨by decide, gtd_tools_purity.2.2.2.2 "buy groceries" "@errands" "t1" "t2"
    (by decide)⟩

/-- The result of the external `urlparse(url)` as far as
`fetch_webpage_summary` inspects it: the `scheme` and `netloc`
components, each the empty string when the component is missing (the
behaviour of `urllib.parse.urlparse`). -/
structure ParsedUrl where
  scheme : String
  netloc : String

/-- Model of `fetch_webpage_summary(url)` from `webpage_summary_agent/agent.py`
(lines 6-60).  `parsed` is the external `urlparse(url)` result;
`attempt i` is what the `i`-th execution of the Gemini call
(`model.generate_content(prompt)` and reading `response.text`) would
yield: a raised exception's message `str(e)`, or the response text,
with `""` covering a falsy response or missing text
(`if response and response.text`).  The returned association list is
the dict literal the source returns, and the `Nat` counts executions of
the model call; returning a dict in every case mirrors the
`except Exception` handler, which never re-raises. -/
def fetch_webpage_summary (url : String) (parsed : ParsedUrl)
    (attempt : Nat → Except String String) : List (String × String) × Nat :=
  if parsed.scheme = "" ∨ parsed.netloc = "" then
    ([("status", "error"),
      ("error_message",
        "Invalid URL format. Please provide a valid URL with protocol (http:// or https://).")],
      0)
  else
    match attempt 0 with
    | Except.error e =>
        ([("status", "error"),
          ("error_message",
            "An error occurred while processing the webpage: " ++ e)], 1)
    | Except.ok text =>
        if text = "" then
          ([("status", "error"),
            ("error_message", "Failed to generate summary from Gemini model.")],
            1)
        else
          ([("status", "success"), ("summary", pythonStrip text),
            ("url", url)], 1)

/-- Claim C9 (confirmed): whenever the parse of the url yields no scheme
or no network location, `fetch_webpage_summary` returns the error dict
with the invalid-URL-format message and executes the model call zero
times. -/
theorem fetch_webpage_summary_invalid_url (url : String) (parsed : ParsedUrl)
    (attempt : Nat → Except String String)
    (h : parsed.scheme = "" ∨ parsed.netloc = "") :
    fetch_webpage_summary url parsed attempt =
      ([("status", "error"),
        ("error_message",
          "Invalid URL format. Please provide a valid URL with protocol (http:// or https://).")],
        0) := by
  simp [fetch_webpage_summary, h]

/-- Witness for claim C9 at a scheme-less url. -/
theorem fetch_webpage_summary_invalid_url_witness :
    (("" : String) = "" ∨ ("example.com" : String) = "") ∧
      fetch_webpage_summary "example.com" ⟨"", "example.com"⟩
          (fun _ => Except.error "unreached") =
        ([("status", "error"),
          ("error_message",
            "Invalid URL format. Please provide a valid URL with protocol (http:// or https://).")],
          0) :=
  ⟨Or.inl rfl,
    fetch_webpage_summary_invalid_url "example.com" ⟨"", "example.com"⟩
      (fun _ => Except.error "unreached") (Or.inl rfl)⟩

/-- Claim C7 (confirmed): whenever the try body raises (any exception
during the network/model call), `create_summary` returns the formatted
string `Error generating summary: <message>` and `fetch_webpage_summary`
returns the dict with status `error` and its formatted error message;
both return plain values (the `except Exception` handlers never
re-raise) and both execute the try body exactly once, so no retry is
attempted. -/
theorem model_errors_returned_not_raised :
    (∀ (pn : ProcessedNote) (attempt : Nat → Except String (List String))
        (e : String),
      ¬(pythonStrip pn.textContent = "" ∨ pn.isTrashed = true) →
      attempt 0 = Except.error e →
      create_summary pn attempt = ("Error generating summary: " ++ e, 1)) ∧
    (∀ (url : String) (parsed : ParsedUrl)
        (attempt : Nat → Except String String) (e : String),
      ¬(parsed.scheme = "" ∨ parsed.netloc = "") →
      attempt 0 = Except.error e →
      fetch_webpage_summary url parsed attempt =
        ([("status", "error"),
          ("error_message",
            "An error occurred while processing the webpage: " ++ e)], 1)) := by
  constructor
  · intro pn attempt e hguard hatt
    simp [create_summary, hguard, hatt]
  · intro url parsed attempt e hguard hatt
    simp [fetch_webpage_summary, hguard, hatt]

/-- Witness for claim C7: a nonempty untrashed note and a valid url,
both hitting a model call that raises `boom`. -/
theorem model_errors_returned_not_raised_witness :
    (¬(pythonStrip "hello" = "" ∨ (false : Bool) = true)) ∧
      create_summary
          { textContent := "hello", createdTimestampUsec := none,
            userEditedTimestampUsec := none, attachments := [],
            isTrashed := false, isArchived := false }
          (fun _ => Except.error "boom") =
        ("Error generating summary: boom", 1) ∧
      fetch_webpage_summary "https://example.com" ⟨"https", "example.com"⟩
          (fun _ => Except.error "boom") =
        ([("status", "error"),
          ("error_message",
            "An error occurred while processing the webpage: boom")], 1) :=
  ⟨by decide,
    model_errors_returned_not_raised.1
      { textContent := "hello", createdTimestampUsec := none,
        userEditedTimestampUsec := none, attachments := [],
        isTrashed := false, isArchived := false }
      (fun _ => Except.error "boom") "boom" (by decide) rfl,
    model_errors_returned_not_raised.2 "https://example.com"
      ⟨"https", "example.com"⟩ (fun _ => Except.error "boom") "boom"
      (by decide) rfl⟩
